import Mathlib

/-!
Shallow embedding of `src/gbm_for_event_localization/train_cls_xgb.py`,
centred on the cross-validation orchestration routine `train_kfold`
(lines 39-175) and its helper `get_importances` (lines 14-37).

Modelling conventions:
* numeric values (labels, predictions, scores) are idealized as `ℚ`;
  feature-importance scores from `get_fscore` are integers (`Int`);
* the external collaborators (the xgboost backend and the sklearn split
  generators) are an abstract, explicitly-passed record `Env`, as the
  spec's "Model Backend" / "Fold Splitter" collaborators;
* a pandas DataFrame or a bare numpy matrix is a `Frame`: row data plus
  an optional column-name list (`hasattr(x_train, 'columns')` becomes
  `Frame.cols.isSome`);
* Python exceptions escaping `train_kfold` become `Except TrainError`;
  the spec's error taxonomy names the constructors.  `splitExhaustion`
  is in the taxonomy but, as proved below, never produced by the code;
* printing, timers, the temp-file round-trip inside `get_importances`
  and `gc` calls are side-effect-free observability and are not modelled;
* numpy index errors for out-of-range fold indices are not modelled:
  `List.set` / `getD` are total, and the theorems that need in-range
  indices carry explicit bounds hypotheses.
-/

namespace XgbKfold

/-- A 2-D numeric array: list of rows. -/
abbrev Mat := List (List ℚ)

/-- One fold: `(train indices, validation indices)`. -/
abbrev Split := List Nat × List Nat

/-- A DataFrame-or-ndarray: data rows plus optional column names. -/
structure Frame where
  data : Mat
  cols : Option (List String)
deriving DecidableEq

/-- Errors escaping `train_kfold`, named after the spec's taxonomy (§7).
`invalidConfig` is the `assert print_imp in [...]` failure (line 68);
`columnReorder` the re-raised `x_test[columns]` failure (lines 83-87);
`shapeMismatch` the feature-count assert (line 94); `badFeatureName` the
`\n`/`\t` assert inside `get_importances` (line 24); `nameError` the
`UnboundLocalError` from `del d_train, d_valid` (line 172) when the fold
loop never ran; `splitExhaustion` is the spec's name for a zero-fold
rejection — the code has no such check and never produces it. -/
inductive TrainError where
  | invalidConfig
  | columnReorder
  | shapeMismatch
  | badFeatureName
  | nameError
  | splitExhaustion
deriving DecidableEq

/-- The external collaborators: sklearn's split generators and the
xgboost backend.  `kfoldSplit seed k x` stands for
`KFold(n_splits=k, shuffle=True, random_state=seed).split(x)`;
`stratSplit seed k x s` for the stratified variant (line 106-107);
`train params xtr ytr xva yva` for `xgb.train` on the fold's DMatrices
(line 133), the handle remembering its best round; `bestScore` for
`mdl.best_score` (line 136); `predictRow` for the per-row prediction of
`mdl.predict(_, ntree_limit=mdl.best_ntree_limit)` (lines 149, 151);
`fscore m cols` for `model.get_fscore(fmap=...)` as an item list
(line 32). -/
structure Env (M P : Type) where
  kfoldSplit : Nat → Nat → Mat → List Split
  stratSplit : Nat → Nat → Mat → List ℚ → List Split
  train : P → Mat → List ℚ → Mat → List ℚ → M
  bestScore : M → ℚ
  predictRow : M → List ℚ → ℚ
  fscore : M → List String → List (String × Int)

variable {M P : Type}

/-- Column count of a (rectangular) matrix, `x.shape[1]`. -/
def ncols : Mat → Nat
  | [] => 0
  | r :: _ => r.length

/-- Row selection `x[idx]` by a list of indices (numpy fancy indexing). -/
def select (x : Mat) (idx : List Nat) : Mat :=
  idx.map (fun i => x.getD i [])

/-- Vector selection `y[idx]`. -/
def selectV (y : List ℚ) (idx : List Nat) : List ℚ :=
  idx.map (fun i => y.getD i 0)

/-- Lines 71-76: column names of the training set — its own names when it
is a DataFrame, else stringified indices `np.arange(F).astype(str)`; the
Bool is `columns_exists`. -/
def trainColumns (x : Frame) : List String × Bool :=
  match x.cols with
  | some cs => (cs, true)
  | none => ((List.range (ncols x.data)).map (fun i => toString i), false)

/-- Line 84: `x_test[columns]` — reorder/select the test columns to match
the training columns; `none` when that raises (missing name, or the test
set has no named columns at all). -/
def reorder (cols : List String) (t : Frame) : Option Mat :=
  match t.cols with
  | none => none
  | some tcs =>
    if cols.all (fun c => tcs.contains c) then
      some (t.data.map (fun row => cols.map (fun c => row.getD (tcs.indexOf c) 0)))
    else none

/-- Lines 82-89: the column coercion step — when the training set has
named columns and checks are on, `x_test[columns]`, re-raising on
failure; otherwise `np.asarray(x_test)` as supplied. -/
def coerceTest (cols : List String) (colsExists skip_checks : Bool) (t : Frame) :
    Except TrainError Mat :=
  if colsExists && !skip_checks then
    match reorder cols t with
    | some d => .ok d
    | none => .error TrainError.columnReorder
  else .ok t.data

/-- Lines 81-96: test-set preparation.  Coerce columns (lines 82-87),
then the feature-count assert (lines 93-94).  Returns the test matrix
destined for `d_test`. -/
def prepTest (cols : List String) (colsExists : Bool) (skip_checks : Bool)
    (nTrainCols : Nat) : Option Frame → Except TrainError (Option Mat)
  | none => .ok none
  | some t =>
    match coerceTest cols colsExists skip_checks t with
    | .error e => .error e
    | .ok d =>
      if !skip_checks then
        if nTrainCols = ncols d then .ok (some d) else .error TrainError.shapeMismatch
      else .ok (some d)

/-- Lines 104-113: fold-source selection.  An integer goes through a
split generator — stratified with the caller's `random_state`
(line 106), plain with the hard-coded seed `4242` (line 109) — while an
explicit split sequence is used verbatim (line 113). -/
def chooseSplits (env : Env M P) (folds : Nat ⊕ List Split)
    (stratify : Option (List ℚ)) (random_state : Nat) (x : Mat) : List Split :=
  match folds with
  | .inl k =>
    match stratify with
    | some s => env.stratSplit random_state k x s
    | none => env.kfoldSplit 4242 k x
  | .inr fs => fs

/-- Line 68: the three recognized `print_imp` values. -/
def recognizedModes : List (Option String) :=
  [some ("every"), some ("final"), none]

/-- Line 24: the assert inside `get_importances` that no feature name
holds a newline or a tab (`'\n' in feature` over the name's characters). -/
def goodFeatureNames (cols : List String) : Bool :=
  cols.all (fun f => !(f.data.contains '\n') && !(f.data.contains '\t'))

/-- Line 33: `sorted(importance.items(), key=lambda x: x[1], reverse=True)`
— stable descending sort by importance value (Python's `sorted` is
stable; so is insertion sort). -/
def sortDesc (l : List (String × Int)) : List (String × Int) :=
  List.insertionSort (fun a b => b.2 ≤ a.2) l

/-- Lines 14-37: `get_importances` — assert the feature names, then the
model's fscore items sorted by descending value.  (The fmap temp file it
writes and removes is pure I/O plumbing for `get_fscore` and is folded
into `Env.fscore`.) -/
def get_importances (env : Env M P) (mdl : M) (features : List String) :
    Except TrainError (List (String × Int)) :=
  if goodFeatureNames features then .ok (sortDesc (env.fscore mdl features))
  else .error TrainError.badFeatureName

/-- The model trained on one fold (lines 124-134): `xgb.train` on the
fold's train subset, monitored on its validation subset. -/
def foldModel (env : Env M P) (params : P) (x : Mat) (y : List ℚ) (sp : Split) : M :=
  env.train params (select x sp.1) (selectV y sp.1) (select x sp.2) (selectV y sp.2)

/-- One fold's importance list (line 141), the payload of
`get_importances` for that fold's model. -/
def foldImp (env : Env M P) (params : P) (x : Mat) (y : List ℚ)
    (cols : List String) (sp : Split) : List (String × Int) :=
  sortDesc (env.fscore (foldModel env params x y sp) cols)

/-- One fold's validation predictions `p_valid` (line 149). -/
def foldPValid (env : Env M P) (params : P) (x : Mat) (y : List ℚ) (sp : Split) : List ℚ :=
  (select x sp.2).map (env.predictRow (foldModel env params x y sp))

/-- One fold's test predictions `p_test` (line 151), on the prepared test
matrix `dt`. -/
def foldTestPred (env : Env M P) (params : P) (x : Mat) (y : List ℚ)
    (dt : Mat) (sp : Split) : List ℚ :=
  dt.map (env.predictRow (foldModel env params x y sp))

/-- Line 146: `imps[f] += i` on a `defaultdict(int)` — update the first
entry with that key in place, or append a fresh one (missing ⇒ 0). -/
def impsAdd (m : List (String × Int)) (f : String) (i : Int) : List (String × Int) :=
  match m with
  | [] => [(f, i)]
  | p :: rest => if p.1 = f then (p.1, p.2 + i) :: rest else p :: impsAdd rest f i

/-- Line 153: `p_train[valid_kf] = p_valid` — numpy fancy-index
assignment, written as a left fold of single writes so that a later
write to the same index wins. -/
def scatter (p : List ℚ) (ps : List (Nat × ℚ)) : List ℚ :=
  ps.foldl (fun acc q => acc.set q.1 q.2) p

/-- The loop accumulators of lines 115-119. -/
structure FoldState (M : Type) where
  p_train : List ℚ
  ps_test : List (List ℚ)
  models : List M
  scores : List ℚ
  imps : List (String × Int)
deriving DecidableEq

/-- Lines 115-119: accumulators before the loop — `p_train` a zero vector
shaped like `y_train`, the rest empty. -/
def initState (y : List ℚ) : FoldState M :=
  { p_train := List.replicate y.length 0
    ps_test := []
    models := []
    scores := []
    imps := [] }

/-- The body of the fold loop (lines 122-159) as a pure state step: train
the fold's model, append its best score, fold its sorted importances into
the running totals, scatter its validation predictions into `p_train`,
and append its test predictions (when a test set exists) and the model. -/
def foldStep (env : Env M P) (params : P) (x : Mat) (y : List ℚ)
    (dtest : Option Mat) (cols : List String) (st : FoldState M) (sp : Split) :
    FoldState M :=
  { p_train := scatter st.p_train (sp.2.zip (foldPValid env params x y sp))
    ps_test :=
      match dtest with
      | some dt => st.ps_test ++ [foldTestPred env params x y dt sp]
      | none => st.ps_test
    models := st.models ++ [foldModel env params x y sp]
    scores := st.scores ++ [env.bestScore (foldModel env params x y sp)]
    imps := (foldImp env params x y cols sp).foldl (fun m q => impsAdd m q.1 q.2) st.imps }

/-- The fold loop (lines 122-159).  Each iteration runs
`get_importances` (whose feature-name assert can raise, line 24); its
payload is what `foldStep` folds into the totals. -/
def runFolds (env : Env M P) (params : P) (x : Mat) (y : List ℚ)
    (dtest : Option Mat) (cols : List String) (st : FoldState M) :
    List Split → Except TrainError (FoldState M)
  | [] => .ok st
  | sp :: rest =>
    match get_importances env (foldModel env params x y sp) cols with
    | .error e => .error e
    | .ok _ => runFolds env params x y dtest cols (foldStep env params x y dtest cols st sp) rest

/-- Elementwise vector addition (one step of numpy's axis-0 sum). -/
def vecAdd (a b : List ℚ) : List ℚ :=
  List.zipWith (fun p q => p + q) a b

/-- Line 162: `np.mean(ps_test, axis=0)` — elementwise sum of the
per-fold vectors divided by their count. -/
def meanAxis0 (vs : List (List ℚ)) : List ℚ :=
  match vs with
  | [] => []
  | v :: rest => (rest.foldl vecAdd v).map (fun q => q / ((rest.length + 1 : ℕ) : ℚ))

/-- What `train_kfold` returns (line 175). -/
structure TrainResult (M : Type) where
  models : List M
  p_train : List ℚ
  p_test : Option (List ℚ)
  imps : List (String × Int)
  scores : List ℚ
deriving DecidableEq

/-- Lines 161-175 after the loop: the final test prediction is the
elementwise mean across folds when a test set was supplied (line 162)
and `None` otherwise (lines 169-170). -/
def finalize (x_test : Option Frame) (st : FoldState M) : TrainResult M :=
  { models := st.models
    p_train := st.p_train
    p_test :=
      match x_test with
      | some _ => some (meanAxis0 st.ps_test)
      | none => none
    imps := st.imps
    scores := st.scores }

/-- Lines 39-175: `train_kfold`.  In order: the `print_imp` assert
(line 68), column detection (lines 71-76), test-set coercion and the
shape assert (lines 81-96), fold-source selection (lines 104-113), the
fold loop (lines 122-159), final averaging (lines 161-170).  When the
fold source yielded no folds the loop never bound `d_train`/`d_valid`
and the cleanup `del` at line 172 raises — `nameError`. -/
def trainKfold (env : Env M P) (params : P) (x_train : Frame) (y_train : List ℚ)
    (x_test : Option Frame) (folds : Nat ⊕ List Split) (stratify : Option (List ℚ))
    (random_state : Nat) (skip_checks : Bool) (print_imp : Option String) :
    Except TrainError (TrainResult M) :=
  if print_imp ∈ recognizedModes then
    match prepTest (trainColumns x_train).1 (trainColumns x_train).2 skip_checks
        (ncols x_train.data) x_test with
    | .error e => .error e
    | .ok dtest =>
      match runFolds env params x_train.data y_train dtest (trainColumns x_train).1
          (initState y_train) (chooseSplits env folds stratify random_state x_train.data) with
      | .error e => .error e
      | .ok st =>
        if (chooseSplits env folds stratify random_state x_train.data).isEmpty then
          .error TrainError.nameError
        else .ok (finalize x_test st)
  else .error TrainError.invalidConfig

/-! ### Derived views used to state the properties -/

/-- The write list one fold scatters into `p_train` (line 153): the
fold's validation indices paired with its validation predictions. -/
def foldWrites (env : Env M P) (params : P) (x : Mat) (y : List ℚ) (sp : Split) :
    List (Nat × ℚ) :=
  sp.2.zip (foldPValid env params x y sp)

/-- The value the write list `ps` leaves at index `j`: the value of the
last pair with first component `j`, if any. -/
def lastWrite (j : Nat) : List (Nat × ℚ) → Option ℚ
  | [] => none
  | q :: rest =>
    match lastWrite j rest with
    | some v => some v
    | none => if q.1 = j then some q.2 else none

/-- The total a running importance dictionary holds for feature `g`
(0 when the key is absent, as for `defaultdict(int)`). -/
def valueOf (m : List (String × Int)) (g : String) : Int :=
  (List.lookup g m).getD 0

/-- The summed importance of feature `g` over one fold's importance
list, counting every pair with that key. -/
def keySum (g : String) (l : List (String × Int)) : Int :=
  ((l.filter (fun q => q.1 == g)).map Prod.snd).sum

/-! ### Concrete material for evaluating the theorems on small runs -/

/-- A tiny concrete backend: every model is `()`, predictions copy the
row's first feature, every model reports importance 1 for feature
`f0`, and the internal k-fold generator produces two fixed folds. -/
def envW : Env Unit Unit :=
  { kfoldSplit := fun _ _ _ => [([0], [1]), ([1], [0])]
    stratSplit := fun _ _ _ _ => []
    train := fun _ _ _ _ _ => ()
    bestScore := fun _ => 0
    predictRow := fun _ r => r.headD 0
    fscore := fun _ _ => [("f0", 1)] }

/-- Two training rows, one feature, no column names. -/
def frameW : Frame := ⟨[[1], [2]], none⟩

/-- Labels for the two training rows. -/
def yW : List ℚ := [0, 0]

/-- A two-row unnamed test set. -/
def testW : Frame := ⟨[[5], [6]], none⟩

/-- One explicit fold: train on row 0, validate on row 1. -/
def spsW1 : List Split := [([0], [1])]

/-- Two explicit folds whose validation sets overlap on index 0. -/
def spsW5 : List Split := [([1], [0]), ([0], [0])]

/-- A one-row training set with two unnamed features. -/
def xtrC4 : Frame := ⟨[[1, 2]], none⟩

/-- A one-row test set with a single unnamed feature. -/
def tC4 : Frame := ⟨[[7]], none⟩

/-- A one-row training set with one named feature. -/
def xtrC4n : Frame := ⟨[[1]], some ["a"]⟩

/-- A one-row test set with two named features, a superset of the
training columns. -/
def tC4n : Frame := ⟨[[3, 4]], some ["a", "b"]⟩

/-- A single label. -/
def yW1 : List ℚ := [0]

/-- The state the fold loop reaches on the concrete inputs above. -/
def stW (xteData : Option Mat) (sps : List Split) : FoldState Unit :=
  sps.foldl (foldStep envW () frameW.data yW xteData (trainColumns frameW).1) (initState yW)

/-- The result `train_kfold` returns on the concrete inputs above. -/
def resW (xte : Option Frame) (sps : List Split) : TrainResult Unit :=
  finalize xte (stW (xte.map Frame.data) sps)

/-- The result of the named-columns run of the C4 counterexample: the
test set is first coerced to the single training column `a`. -/
def resC4n : TrainResult Unit :=
  finalize (some tC4n)
    ([([0], [0])].foldl
      (foldStep envW () xtrC4n.data yW1 (some [[3]]) (trainColumns xtrC4n).1)
      (initState yW1))

/-! ### Basic list lemmas used by the invariant proofs -/

theorem mem_zip_left {j : Nat} : ∀ {idx : List Nat} {vals : List ℚ},
    j ∈ idx → idx.length ≤ vals.length → ∃ v, (j, v) ∈ idx.zip vals
  | i :: idx, v :: vals, hm, hl => by
    rcases List.mem_cons.mp hm with h | h
    · exact ⟨v, by simp [h]⟩
    · rcases mem_zip_left h (Nat.le_of_succ_le_succ hl) with ⟨w, hw⟩
      exact ⟨w, List.mem_cons_of_mem _ hw⟩

/-! ### Scatter (numpy fancy-index assignment) and the last-write view -/

theorem scatter_cons (p : List ℚ) (q : Nat × ℚ) (ps : List (Nat × ℚ)) :
    scatter p (q :: ps) = scatter (p.set q.1 q.2) ps := rfl

theorem length_scatter : ∀ (ps : List (Nat × ℚ)) (p : List ℚ),
    (scatter p ps).length = p.length
  | [], _ => rfl
  | q :: ps, p => by rw [scatter_cons, length_scatter ps, List.length_set]

theorem scatter_append (p : List ℚ) (a b : List (Nat × ℚ)) :
    scatter p (a ++ b) = scatter (scatter p a) b :=
  List.foldl_append _ _ _ _

theorem getElem?_scatter (j : Nat) : ∀ (ps : List (Nat × ℚ)) (p : List ℚ), j < p.length →
    (scatter p ps)[j]? =
      match lastWrite j ps with
      | some v => some v
      | none => p[j]?
  | [], _, _ => rfl
  | q :: ps, p, h => by
    rw [scatter_cons, getElem?_scatter j ps (p.set q.1 q.2) (by rw [List.length_set]; exact h)]
    cases hlw : lastWrite j ps with
    | some v => simp [lastWrite, hlw]
    | none =>
      by_cases hq : q.1 = j
      · subst hq
        simp [lastWrite, hlw, List.getElem?_set_self h]
      · simp [lastWrite, hlw, hq, List.getElem?_set_ne hq]

theorem lastWrite_append (j : Nat) : ∀ (a b : List (Nat × ℚ)),
    lastWrite j (a ++ b) =
      match lastWrite j b with
      | some v => some v
      | none => lastWrite j a
  | [], b => by cases h : lastWrite j b <;> simp [lastWrite, h]
  | q :: a, b => by
    show (match lastWrite j (a ++ b) with
          | some v => some v
          | none => if q.1 = j then some q.2 else none) = _
    rw [lastWrite_append j a b]
    cases h : lastWrite j b <;> cases h' : lastWrite j a <;> simp [lastWrite, h, h']

theorem lastWrite_eq_none (j : Nat) : ∀ {ps : List (Nat × ℚ)},
    (∀ q ∈ ps, q.1 ≠ j) → lastWrite j ps = none
  | [], _ => rfl
  | q :: ps, h => by
    have hrest := lastWrite_eq_none j (fun x hx => h x (List.mem_cons_of_mem _ hx))
    simp [lastWrite, hrest, h q (List.mem_cons_self q ps)]

theorem lastWrite_isSome {j : Nat} {v : ℚ} : ∀ {ps : List (Nat × ℚ)},
    (j, v) ∈ ps → (lastWrite j ps).isSome = true
  | q :: ps, h => by
    rcases List.mem_cons.mp h with h1 | h1
    · cases hlw : lastWrite j ps with
      | some w => simp [lastWrite, hlw]
      | none => simp [lastWrite, hlw, ← h1]
    · have := lastWrite_isSome h1
      cases hlw : lastWrite j ps with
      | some w => simp [lastWrite, hlw]
      | none => rw [hlw] at this; simp at this

/-! ### The importance accumulator (`defaultdict(int)` with `+=`) -/

theorem lookup_cons (g k : String) (v : Int) (rest : List (String × Int)) :
    List.lookup g ((k, v) :: rest) = if g = k then some v else List.lookup g rest := by
  by_cases h : g = k
  · subst h; simp [List.lookup]
  · have hb : (g == k) = false := beq_eq_false_iff_ne.mpr h
    simp [List.lookup, hb, h]

theorem valueOf_cons (g k : String) (v : Int) (rest : List (String × Int)) :
    valueOf ((k, v) :: rest) g = if g = k then v else valueOf rest g := by
  rw [valueOf, lookup_cons]
  by_cases h : g = k <;> simp [h, valueOf]

theorem valueOf_nil (g : String) : valueOf [] g = 0 := rfl

theorem valueOf_impsAdd (m : List (String × Int)) (f : String) (i : Int) (g : String) :
    valueOf (impsAdd m f i) g = valueOf m g + (if g = f then i else 0) := by
  induction m with
  | nil =>
    rw [show impsAdd ([] : List (String × Int)) f i = [(f, i)] from rfl,
      valueOf_cons, valueOf_nil]
    by_cases h : g = f
    · rw [if_pos h]; omega
    · rw [if_neg h]; omega
  | cons p rest ih =>
    obtain ⟨k, v⟩ := p
    by_cases hp : k = f
    · rw [show impsAdd ((k, v) :: rest) f i = (k, v + i) :: rest from by simp [impsAdd, hp],
        valueOf_cons, valueOf_cons]
      by_cases hg : g = k
      · simp only [if_pos hg, if_pos (hg.trans hp)]
      · simp only [if_neg hg, if_neg (fun e : g = f => hg (e.trans hp.symm))]; omega
    · rw [show impsAdd ((k, v) :: rest) f i = (k, v) :: impsAdd rest f i from by
        simp [impsAdd, hp], valueOf_cons, valueOf_cons]
      by_cases hg : g = k
      · simp only [if_pos hg, if_neg (fun e : g = f => hp (hg.symm.trans e))]; omega
      · simp only [if_neg hg]
        exact ih

theorem keySum_cons (g k : String) (v : Int) (l : List (String × Int)) :
    keySum g ((k, v) :: l) = (if k = g then v else 0) + keySum g l := by
  by_cases h : k = g
  · simp [keySum, List.filter_cons, h]
  · have hb : (k == g) = false := beq_eq_false_iff_ne.mpr h
    simp [keySum, List.filter_cons, hb, h]

theorem valueOf_foldlAdd (l : List (String × Int)) : ∀ (m : List (String × Int)) (g : String),
    valueOf (l.foldl (fun m q => impsAdd m q.1 q.2) m) g = valueOf m g + keySum g l := by
  induction l with
  | nil => intro m g; simp [keySum]
  | cons q l ih =>
    intro m g
    obtain ⟨k, v⟩ := q
    rw [List.foldl_cons, ih, valueOf_impsAdd, keySum_cons]
    by_cases h : g = k
    · rw [if_pos h, if_pos h.symm]; omega
    · rw [if_neg h, if_neg fun e => h e.symm]; omega

theorem keySum_eq_zero {g : String} {l : List (String × Int)}
    (h : g ∉ l.map Prod.fst) : keySum g l = 0 := by
  induction l with
  | nil => rfl
  | cons q l ih =>
    obtain ⟨k, v⟩ := q
    have h1 : ¬ k = g := fun e => h (by simp [e])
    have h2 : g ∉ l.map Prod.fst := fun e => h (by simp [e])
    rw [keySum_cons]
    simp [h1, ih h2]

theorem keySum_of_nodup {g : String} {l : List (String × Int)}
    (h : (l.map Prod.fst).Nodup) : keySum g l = valueOf l g := by
  induction l with
  | nil => rfl
  | cons q l ih =>
    obtain ⟨k, v⟩ := q
    simp only [List.map_cons] at h
    obtain ⟨hk, hl⟩ := List.nodup_cons.mp h
    rw [keySum_cons, valueOf_cons]
    by_cases hkg : k = g
    · subst hkg
      rw [keySum_eq_zero hk]
      simp
    · have hgk : ¬ g = k := fun e => hkg e.symm
      simp [hkg, hgk, ih hl]

/-! ### The mean along axis 0 -/

theorem getElem?_eq_getD {l : List ℚ} {i : Nat} (h : i < l.length) :
    l[i]? = some (l.getD i 0) := by
  simp [List.getD, List.get?_eq_getElem?, List.getElem?_eq_getElem h]

theorem getD_eq_of_getElem? {l : List ℚ} {i : Nat} {a : ℚ} (h : l[i]? = some a) :
    l.getD i 0 = a := by
  simp [List.getD, List.get?_eq_getElem?, h]

theorem vecAdd_getElem? {a b : List ℚ} {i : Nat} (ha : i < a.length) (hb : i < b.length) :
    (vecAdd a b)[i]? = some (a.getD i 0 + b.getD i 0) := by
  show (List.zipWith (fun p q => p + q) a b)[i]? = _
  rw [List.getElem?_zipWith, getElem?_eq_getD ha, getElem?_eq_getD hb]

theorem foldl_vecAdd_spec (T : Nat) : ∀ (vs : List (List ℚ)) (acc : List ℚ),
    acc.length = T → (∀ u ∈ vs, u.length = T) →
    (vs.foldl vecAdd acc).length = T ∧
    ∀ i, i < T → (vs.foldl vecAdd acc)[i]? =
      some (acc.getD i 0 + (vs.map (fun u => u.getD i 0)).sum)
  | [], acc, hacc, _ => by
    refine ⟨hacc, fun i hi => ?_⟩
    show acc[i]? = some (acc.getD i 0 + (List.map (fun (u : List ℚ) => u.getD i 0) []).sum)
    rw [List.map_nil, List.sum_nil, add_zero]
    exact getElem?_eq_getD (hacc ▸ hi)
  | v :: vs, acc, hacc, hlen => by
    have hv : v.length = T := hlen v (List.mem_cons_self v vs)
    have hadd : (vecAdd acc v).length = T := by
      simp [vecAdd, List.length_zipWith, hacc, hv]
    obtain ⟨hl, hget⟩ := foldl_vecAdd_spec T vs (vecAdd acc v) hadd
      (fun u hu => hlen u (List.mem_cons_of_mem _ hu))
    refine ⟨hl, fun i hi => ?_⟩
    rw [List.foldl_cons, hget i hi]
    have := vecAdd_getElem? (a := acc) (b := v) (i := i) (hacc ▸ hi) (hv ▸ hi)
    rw [getD_eq_of_getElem? this]
    simp [add_assoc]

theorem meanAxis0_spec (T : Nat) (vs : List (List ℚ)) (hne : vs ≠ [])
    (hlen : ∀ u ∈ vs, u.length = T) :
    (meanAxis0 vs).length = T ∧
    ∀ i, i < T → (meanAxis0 vs)[i]? =
      some ((vs.map (fun u => u.getD i 0)).sum / (vs.length : ℚ)) := by
  cases vs with
  | nil => exact absurd rfl hne
  | cons v rest =>
    obtain ⟨hl, hget⟩ := foldl_vecAdd_spec T rest v (hlen v (List.mem_cons_self v rest))
      (fun u hu => hlen u (List.mem_cons_of_mem _ hu))
    constructor
    · rw [show meanAxis0 (v :: rest) =
          (rest.foldl vecAdd v).map (fun q => q / ((rest.length + 1 : ℕ) : ℚ)) from rfl,
        List.length_map]
      exact hl
    · intro i hi
      rw [show meanAxis0 (v :: rest) =
          (rest.foldl vecAdd v).map (fun q => q / ((rest.length + 1 : ℕ) : ℚ)) from rfl,
        List.getElem?_map, hget i hi, List.map_cons, List.sum_cons, List.length_cons]
      rfl

/-! ### Projections of the fold loop -/

variable (env : Env M P) (params : P) (x : Mat) (y : List ℚ)
variable (dtest : Option Mat) (cols : List String)

theorem foldl_models : ∀ (sps : List Split) (st : FoldState M),
    (sps.foldl (foldStep env params x y dtest cols) st).models =
      st.models ++ sps.map (foldModel env params x y)
  | [], st => by simp
  | sp :: sps, st => by
    rw [List.foldl_cons, foldl_models sps]
    simp [foldStep]

theorem foldl_scores : ∀ (sps : List Split) (st : FoldState M),
    (sps.foldl (foldStep env params x y dtest cols) st).scores =
      st.scores ++ sps.map (fun sp => env.bestScore (foldModel env params x y sp))
  | [], st => by simp
  | sp :: sps, st => by
    rw [List.foldl_cons, foldl_scores sps]
    simp [foldStep]

theorem foldl_psTest_some (dt : Mat) : ∀ (sps : List Split) (st : FoldState M),
    (sps.foldl (foldStep env params x y (some dt) cols) st).ps_test =
      st.ps_test ++ sps.map (foldTestPred env params x y dt)
  | [], st => by simp
  | sp :: sps, st => by
    rw [List.foldl_cons, foldl_psTest_some dt sps]
    simp [foldStep]

theorem foldl_psTest_none : ∀ (sps : List Split) (st : FoldState M),
    (sps.foldl (foldStep env params x y none cols) st).ps_test = st.ps_test
  | [], st => rfl
  | sp :: sps, st => by
    rw [List.foldl_cons, foldl_psTest_none sps]
    rfl

theorem foldl_pTrain : ∀ (sps : List Split) (st : FoldState M),
    (sps.foldl (foldStep env params x y dtest cols) st).p_train =
      scatter st.p_train ((sps.map (foldWrites env params x y)).flatten)
  | [], st => rfl
  | sp :: sps, st => by
    rw [List.foldl_cons, foldl_pTrain sps]
    rw [show (foldStep env params x y dtest cols st sp).p_train =
      scatter st.p_train (foldWrites env params x y sp) from rfl]
    rw [← scatter_append]
    simp

theorem foldl_imps (g : String) : ∀ (sps : List Split) (st : FoldState M),
    valueOf ((sps.foldl (foldStep env params x y dtest cols) st).imps) g =
      valueOf st.imps g +
        (sps.map (fun sp => keySum g (foldImp env params x y cols sp))).sum
  | [], st => by simp
  | sp :: sps, st => by
    rw [List.foldl_cons, foldl_imps g sps]
    rw [show (foldStep env params x y dtest cols st sp).imps =
      (foldImp env params x y cols sp).foldl (fun m q => impsAdd m q.1 q.2) st.imps from rfl]
    rw [valueOf_foldlAdd]
    simp [add_assoc]

/-! ### Characterizing the loop and a successful run -/

theorem runFolds_ok_of_good (hg : goodFeatureNames cols = true) :
    ∀ (sps : List Split) (st : FoldState M),
    runFolds env params x y dtest cols st sps =
      .ok (sps.foldl (foldStep env params x y dtest cols) st)
  | [], _ => rfl
  | sp :: sps, st => by
    simp only [runFolds, get_importances, hg, if_true, List.foldl_cons]
    exact runFolds_ok_of_good hg sps _

theorem runFolds_error_imp : ∀ (sps : List Split) (st : FoldState M) {e : TrainError},
    runFolds env params x y dtest cols st sps = .error e → e = .badFeatureName
  | [], _, _, h => Except.noConfusion h
  | sp :: sps, st, e, h => by
    cases hg : goodFeatureNames cols with
    | true =>
      simp only [runFolds, get_importances, hg, if_true] at h
      exact runFolds_error_imp sps _ h
    | false =>
      simp only [runFolds, get_importances, hg, Bool.false_eq_true, if_false] at h
      exact (Except.error.inj h).symm

theorem reorder_length {cs : List String} {t : Frame} {d : Mat}
    (h : reorder cs t = some d) : d.length = t.data.length := by
  obtain ⟨data, tcols⟩ := t
  cases tcols with
  | none => exact Option.noConfusion h
  | some tcs =>
    by_cases hall : (cs.all fun c => tcs.contains c) = true
    · have h2 : some (data.map (fun row => cs.map (fun c => row.getD (tcs.indexOf c) 0)))
          = some d := by
        rw [← h]
        show _ = (if (cs.all fun c => tcs.contains c) = true then _ else none)
        rw [if_pos hall]
      rw [← Option.some.inj h2]
      simp
    · have h2 : (none : Option Mat) = some d := by
        rw [← h]
        show _ = (if (cs.all fun c => tcs.contains c) = true then _ else none)
        rw [if_neg hall]
      exact Option.noConfusion h2

theorem coerceTest_ok_length {cs : List String} {ce skip : Bool} {t : Frame} {d : Mat}
    (h : coerceTest cs ce skip t = .ok d) : d.length = t.data.length := by
  unfold coerceTest at h
  by_cases hc : (ce && !skip) = true
  · rw [if_pos hc] at h
    cases hr : reorder cs t with
    | none => rw [hr] at h; exact Except.noConfusion h
    | some d' =>
      rw [hr] at h
      have h2 : (Except.ok d' : Except TrainError Mat) = Except.ok d := h
      rw [← Except.ok.inj h2]
      exact reorder_length hr
  · rw [if_neg hc] at h
    rw [← Except.ok.inj h]

theorem prepTest_ok_none {cs : List String} {ce skip : Bool} {n : Nat}
    {dtest : Option Mat} (h : prepTest cs ce skip n none = .ok dtest) : dtest = none :=
  (Except.ok.inj h).symm

theorem prepTest_ok_some {cs : List String} {ce skip : Bool} {n : Nat} {t : Frame}
    {dtest : Option Mat} (h : prepTest cs ce skip n (some t) = .ok dtest) :
    ∃ dt, dtest = some dt ∧ dt.length = t.data.length := by
  simp only [prepTest] at h
  cases h1 : coerceTest cs ce skip t with
  | error e => rw [h1] at h; exact Except.noConfusion h
  | ok d =>
    rw [h1] at h
    have h2 : (if (!skip) = true then
        (if n = ncols d then Except.ok (some d)
         else Except.error TrainError.shapeMismatch)
        else Except.ok (some d)) = Except.ok dtest := h
    refine ⟨d, ?_, coerceTest_ok_length h1⟩
    by_cases hs : (!skip) = true
    · rw [if_pos hs] at h2
      by_cases hn : n = ncols d
      · rw [if_pos hn] at h2
        exact (Except.ok.inj h2).symm
      · rw [if_neg hn] at h2
        exact Except.noConfusion h2
    · rw [if_neg hs] at h2
      exact (Except.ok.inj h2).symm

theorem trainKfold_ok_elim {xtr : Frame} {ytr : List ℚ} {xte : Option Frame}
    {folds : Nat ⊕ List Split} {strat : Option (List ℚ)} {rs : Nat} {skip : Bool}
    {pim : Option String} {r : TrainResult M}
    (h : trainKfold env params xtr ytr xte folds strat rs skip pim = .ok r) :
    pim ∈ recognizedModes ∧
    goodFeatureNames (trainColumns xtr).1 = true ∧
    chooseSplits env folds strat rs xtr.data ≠ [] ∧
    ∃ dtest, prepTest (trainColumns xtr).1 (trainColumns xtr).2 skip
        (ncols xtr.data) xte = .ok dtest ∧
      r = finalize xte ((chooseSplits env folds strat rs xtr.data).foldl
            (foldStep env params xtr.data ytr dtest (trainColumns xtr).1)
            (initState ytr)) := by
  by_cases hp : pim ∈ recognizedModes
  · unfold trainKfold at h
    rw [if_pos hp] at h
    cases hq : prepTest (trainColumns xtr).1 (trainColumns xtr).2 skip
        (ncols xtr.data) xte with
    | error e => rw [hq] at h; exact Except.noConfusion h
    | ok dt =>
      rw [hq] at h
      have h3 : (match runFolds env params xtr.data ytr dt (trainColumns xtr).1
          (initState ytr) (chooseSplits env folds strat rs xtr.data) with
        | Except.error e => Except.error e
        | Except.ok st =>
          if (chooseSplits env folds strat rs xtr.data).isEmpty = true then
            Except.error TrainError.nameError
          else Except.ok (finalize xte st)) = Except.ok r := h
      cases hg : goodFeatureNames (trainColumns xtr).1 with
      | false =>
        cases hsp : chooseSplits env folds strat rs xtr.data with
        | nil =>
          rw [hsp] at h3
          have h4 : (Except.error TrainError.nameError :
              Except TrainError (TrainResult M)) = Except.ok r := h3
          exact Except.noConfusion h4
        | cons s ss =>
          rw [hsp] at h3
          have hrf : runFolds env params xtr.data ytr dt (trainColumns xtr).1
              (initState ytr) (s :: ss) = .error .badFeatureName := by
            simp only [runFolds, get_importances, hg, Bool.false_eq_true, if_false]
          rw [hrf] at h3
          have h4 : (Except.error TrainError.badFeatureName :
              Except TrainError (TrainResult M)) = Except.ok r := h3
          exact Except.noConfusion h4
      | true =>
        rw [runFolds_ok_of_good env params xtr.data ytr dt (trainColumns xtr).1 hg] at h3
        cases hsp : chooseSplits env folds strat rs xtr.data with
        | nil =>
          rw [hsp] at h3
          have h4 : (Except.error TrainError.nameError :
              Except TrainError (TrainResult M)) = Except.ok r := h3
          exact Except.noConfusion h4
        | cons s ss =>
          rw [hsp] at h3
          have h4 : Except.ok (finalize xte ((s :: ss).foldl
              (foldStep env params xtr.data ytr dt (trainColumns xtr).1)
              (initState ytr))) = Except.ok r := h3
          exact ⟨hp, rfl, by simp, dt, rfl, (Except.ok.inj h4).symm⟩
  · unfold trainKfold at h
    rw [if_neg hp] at h
    exact Except.noConfusion h

/-! ### The claims -/

/-- C3: a `print_imp` value outside the three recognized values
(`'every'`, `'final'`, `None`) makes `train_kfold` raise `InvalidConfig`
(the assert at line 68) before any fold is trained: the error return is
the same for every backend and split generator, and carries no partial
accumulator state. -/
theorem spec_C3_invalid_mode (env : Env M P) (params : P) (xtr : Frame) (ytr : List ℚ)
    (xte : Option Frame) (folds : Nat ⊕ List Split) (strat : Option (List ℚ))
    (rs : Nat) (skip : Bool) (pim : Option String) (hbad : pim ∉ recognizedModes) :
    trainKfold env params xtr ytr xte folds strat rs skip pim =
      .error TrainError.invalidConfig := by
  unfold trainKfold
  rw [if_neg hbad]

/-- C3 witness: the concrete mode `'invalid'` is rejected on the
concrete two-row run. -/
theorem spec_C3_witness :
    trainKfold envW () frameW yW none (.inl 5) none 1337 false (some ("invalid")) =
      .error TrainError.invalidConfig :=
  spec_C3_invalid_mode envW () frameW yW none (.inl 5) none 1337 false
    (some ("invalid")) (by decide)

/-- C7 counterexample: a fold source yielding zero folds does make the
call fail, but with the accidental `NameError` of `del d_train, d_valid`
at line 172, not with a `SplitExhaustion` error — no such check exists
in the code. -/
theorem spec_C7_counterexample :
    trainKfold envW () frameW yW none (.inr ([] : List Split)) none 1337 false
        (some ("final")) = .error TrainError.nameError ∧
    trainKfold envW () frameW yW none (.inr ([] : List Split)) none 1337 false
        (some ("final")) ≠ .error TrainError.splitExhaustion := by
  refine ⟨rfl, ?_⟩
  intro h
  rw [show trainKfold envW () frameW yW none (.inr ([] : List Split)) none 1337 false
      (some ("final")) = .error TrainError.nameError from rfl] at h
  exact TrainError.noConfusion (Except.error.inj h)

/-- C7 amended: whenever the pre-loop checks pass and the fold source
yields zero folds, the call fails — with the `NameError` raised by the
cleanup `del` of the never-bound per-fold variables (line 172), rather
than with a dedicated `SplitExhaustion` error or a degenerate result. -/
theorem spec_C7_zero_folds (env : Env M P) (params : P) (xtr : Frame) (ytr : List ℚ)
    (xte : Option Frame) (folds : Nat ⊕ List Split) (strat : Option (List ℚ))
    (rs : Nat) (skip : Bool) (pim : Option String) {dtest : Option Mat}
    (hp : pim ∈ recognizedModes)
    (hq : prepTest (trainColumns xtr).1 (trainColumns xtr).2 skip
        (ncols xtr.data) xte = .ok dtest)
    (hsp : chooseSplits env folds strat rs xtr.data = []) :
    trainKfold env params xtr ytr xte folds strat rs skip pim =
      .error TrainError.nameError := by
  unfold trainKfold
  rw [if_pos hp, hq, hsp]
  rfl

/-- C7 witness: the amended behaviour on a concrete zero-fold call. -/
theorem spec_C7_witness :
    trainKfold envW () frameW yW none (.inr ([] : List Split)) none 0 false
        (some ("every")) = .error TrainError.nameError :=
  spec_C7_zero_folds envW () frameW yW none (.inr []) none 0 false
    (some ("every")) (by decide) rfl rfl

/-- C8: two calls that differ only in the importance reporting mode,
both modes recognized, return identical values — the mode only controls
printing (lines 142-143 and 166-167), never the returned models,
predictions, importances or scores. -/
theorem spec_C8_mode_pure (env : Env M P) (params : P) (xtr : Frame) (ytr : List ℚ)
    (xte : Option Frame) (folds : Nat ⊕ List Split) (strat : Option (List ℚ))
    (rs : Nat) (skip : Bool) (m1 m2 : Option String)
    (h1 : m1 ∈ recognizedModes) (h2 : m2 ∈ recognizedModes) :
    trainKfold env params xtr ytr xte folds strat rs skip m1 =
      trainKfold env params xtr ytr xte folds strat rs skip m2 := by
  unfold trainKfold
  rw [if_pos h1, if_pos h2]

/-- C8 witness: `'every'` and `None` give the same result on the
concrete run. -/
theorem spec_C8_witness :
    trainKfold envW () frameW yW none (.inr [([0], [1])]) none 7 false
        (some ("every")) =
      trainKfold envW () frameW yW none (.inr [([0], [1])]) none 7 false none :=
  spec_C8_mode_pure envW () frameW yW none (.inr [([0], [1])]) none 7 false
    (some ("every")) none (by decide) (by decide)

/-- C10: with an integer fold count and no stratification array the
generated splits come from `KFold(..., random_state=4242)` — the
hard-coded seed at line 109 — so the caller's `random_state` is ignored:
two calls differing only in `random_state` return identical results. -/
theorem spec_C10_seed_ignored (env : Env M P) (params : P) (xtr : Frame)
    (ytr : List ℚ) (xte : Option Frame) (k : Nat) (rs1 rs2 : Nat) (skip : Bool)
    (pim : Option String) :
    chooseSplits env (.inl k) none rs1 xtr.data = env.kfoldSplit 4242 k xtr.data ∧
    trainKfold env params xtr ytr xte (.inl k) none rs1 skip pim =
      trainKfold env params xtr ytr xte (.inl k) none rs2 skip pim :=
  ⟨rfl, rfl⟩

/-- C6: an explicit iterable of splits is used verbatim (line 113): the
chosen split list is the supplied sequence itself, the result does not
depend on the internal split generators at all, and a successful run
returns exactly one model and one score per supplied pair. -/
theorem spec_C6_folds_verbatim (env : Env M P) (g1 : Nat → Nat → Mat → List Split)
    (g2 : Nat → Nat → Mat → List ℚ → List Split) (params : P) (xtr : Frame)
    (ytr : List ℚ) (xte : Option Frame) (fs : List Split) (strat : Option (List ℚ))
    (rs : Nat) (skip : Bool) (pim : Option String) :
    chooseSplits env (.inr fs) strat rs xtr.data = fs ∧
    trainKfold { env with kfoldSplit := g1, stratSplit := g2 } params xtr ytr xte
        (.inr fs) strat rs skip pim =
      trainKfold env params xtr ytr xte (.inr fs) strat rs skip pim ∧
    ∀ r, trainKfold env params xtr ytr xte (.inr fs) strat rs skip pim = .ok r →
      r.models.length = fs.length ∧ r.scores.length = fs.length := by
  have hrun : ∀ (sps : List Split) (st : FoldState M) (dt : Option Mat)
      (cs : List String),
      runFolds { env with kfoldSplit := g1, stratSplit := g2 } params xtr.data ytr
          dt cs st sps =
        runFolds env params xtr.data ytr dt cs st sps := by
    intro sps
    induction sps with
    | nil => intro st dt cs; rfl
    | cons sp sps ih =>
      intro st dt cs
      show (match get_importances env (foldModel env params xtr.data ytr sp) cs with
        | Except.error e => Except.error e
        | Except.ok _ =>
          runFolds { env with kfoldSplit := g1, stratSplit := g2 } params xtr.data
            ytr dt cs (foldStep env params xtr.data ytr dt cs st sp) sps) = _
      cases hgi : get_importances env (foldModel env params xtr.data ytr sp) cs with
      | error e =>
        have hR : runFolds env params xtr.data ytr dt cs st (sp :: sps) =
            Except.error e := by
          show (match get_importances env (foldModel env params xtr.data ytr sp) cs with
            | Except.error e => Except.error e
            | Except.ok _ =>
              runFolds env params xtr.data ytr dt cs
                (foldStep env params xtr.data ytr dt cs st sp) sps) = Except.error e
          rw [hgi]
        rw [hR]
      | ok l =>
        have hR : runFolds env params xtr.data ytr dt cs st (sp :: sps) =
            runFolds env params xtr.data ytr dt cs
              (foldStep env params xtr.data ytr dt cs st sp) sps := by
          show (match get_importances env (foldModel env params xtr.data ytr sp) cs with
            | Except.error e => Except.error e
            | Except.ok _ =>
              runFolds env params xtr.data ytr dt cs
                (foldStep env params xtr.data ytr dt cs st sp) sps) = _
          rw [hgi]
        rw [hR]
        exact ih _ _ _
  refine ⟨rfl, ?_, ?_⟩
  · unfold trainKfold
    by_cases hp : pim ∈ recognizedModes
    · rw [if_pos hp, if_pos hp]
      cases hq : prepTest (trainColumns xtr).1 (trainColumns xtr).2 skip
          (ncols xtr.data) xte with
      | error e => rfl
      | ok dt =>
        show (match runFolds { env with kfoldSplit := g1, stratSplit := g2 } params
            xtr.data ytr dt (trainColumns xtr).1 (initState ytr) fs with
          | Except.error e => Except.error e
          | Except.ok st =>
            if fs.isEmpty = true then Except.error TrainError.nameError
            else Except.ok (finalize xte st)) = _
        rw [hrun]
        rfl
    · rw [if_neg hp, if_neg hp]
  intro r h
  obtain ⟨_, _, _, dtest, _, hr⟩ := trainKfold_ok_elim env params h
  constructor
  · have h1 : r.models = ((chooseSplits env (.inr fs) strat rs xtr.data).foldl
        (foldStep env params xtr.data ytr dtest (trainColumns xtr).1)
        (initState ytr)).models := by subst hr; rfl
    rw [h1, foldl_models]
    simp [initState, chooseSplits]
  · have h1 : r.scores = ((chooseSplits env (.inr fs) strat rs xtr.data).foldl
        (foldStep env params xtr.data ytr dtest (trainColumns xtr).1)
        (initState ytr)).scores := by subst hr; rfl
    rw [h1, foldl_scores]
    simp [initState, chooseSplits]

/-- C6 witness: the two supplied folds produce exactly two models and
two scores on the concrete run. -/
theorem spec_C6_witness :
    (resW none spsW5).models.length = spsW5.length ∧
    (resW none spsW5).scores.length = spsW5.length :=
  (spec_C6_folds_verbatim envW (fun _ _ _ => []) (fun _ _ _ _ => []) () frameW yW
    none spsW5 none 1337 false (some ("final"))).2.2 (resW none spsW5) rfl

/-- C2: for every feature, the returned importance total is the sum over
all folds of that fold's importance for the feature, a feature missing
from a fold's importance mapping contributing 0 (lines 119 and 145-146);
the claim quantifies over features seen in at least one fold, and each
fold's extraction is a mapping (no duplicate keys, as for a dict). -/
theorem spec_C2_importance_totals (env : Env M P) (params : P) (xtr : Frame)
    (ytr : List ℚ) (xte : Option Frame) (folds : Nat ⊕ List Split)
    (strat : Option (List ℚ)) (rs : Nat) (skip : Bool) (pim : Option String)
    (r : TrainResult M)
    (h : trainKfold env params xtr ytr xte folds strat rs skip pim = .ok r)
    (f : String)
    (_hseen : ∃ sp ∈ chooseSplits env folds strat rs xtr.data,
      f ∈ (foldImp env params xtr.data ytr (trainColumns xtr).1 sp).map Prod.fst)
    (hnodup : ∀ sp ∈ chooseSplits env folds strat rs xtr.data,
      ((foldImp env params xtr.data ytr (trainColumns xtr).1 sp).map Prod.fst).Nodup) :
    (List.lookup f r.imps).getD 0 =
      ((chooseSplits env folds strat rs xtr.data).map
        (fun sp => (List.lookup f
          (foldImp env params xtr.data ytr (trainColumns xtr).1 sp)).getD 0)).sum := by
  obtain ⟨_, _, _, dtest, _, hr⟩ := trainKfold_ok_elim env params h
  have h1 : r.imps = ((chooseSplits env folds strat rs xtr.data).foldl
      (foldStep env params xtr.data ytr dtest (trainColumns xtr).1)
      (initState ytr)).imps := by subst hr; rfl
  show valueOf r.imps f = _
  rw [h1, foldl_imps]
  rw [show valueOf (initState ytr).imps f = 0 from rfl, zero_add]
  refine congrArg List.sum (List.map_congr_left ?_)
  intro sp hsp
  rw [keySum_of_nodup (hnodup sp hsp)]
  rfl

/-- C2 witness: on the concrete one-fold run, the total for `f0` equals
the sum of the per-fold lookups. -/
theorem spec_C2_witness :
    (List.lookup ("f0") (resW none spsW1).imps).getD 0 =
      ((chooseSplits envW (.inr spsW1) none 1337 frameW.data).map
        (fun sp => (List.lookup ("f0")
          (foldImp envW () frameW.data yW (trainColumns frameW).1 sp)).getD 0)).sum :=
  spec_C2_importance_totals envW () frameW yW none (.inr spsW1) none 1337 false
    (some ("final")) (resW none spsW1) rfl ("f0") (by decide) (by decide)

/-- C9: the out-of-fold prediction vector is shaped like `y_train`
(zeros at line 115) and any index never covered by a fold's validation
set still holds 0 after the run — only validation indices are written
(line 153). -/
theorem spec_C9_oof_shape (env : Env M P) (params : P) (xtr : Frame)
    (ytr : List ℚ) (xte : Option Frame) (folds : Nat ⊕ List Split)
    (strat : Option (List ℚ)) (rs : Nat) (skip : Bool) (pim : Option String)
    (r : TrainResult M)
    (h : trainKfold env params xtr ytr xte folds strat rs skip pim = .ok r) :
    r.p_train.length = ytr.length ∧
    ∀ j, j < ytr.length →
      (∀ sp ∈ chooseSplits env folds strat rs xtr.data, j ∉ sp.2) →
      r.p_train[j]? = some 0 := by
  obtain ⟨_, _, _, dtest, _, hr⟩ := trainKfold_ok_elim env params h
  have h1 : r.p_train = scatter (List.replicate ytr.length 0)
      (((chooseSplits env folds strat rs xtr.data).map
        (foldWrites env params xtr.data ytr)).flatten) := by
    rw [hr]
    show ((chooseSplits env folds strat rs xtr.data).foldl
        (foldStep env params xtr.data ytr dtest (trainColumns xtr).1)
        (initState ytr)).p_train = _
    rw [foldl_pTrain]
    rfl
  constructor
  · rw [h1, length_scatter, List.length_replicate]
  · intro j hj hnotin
    have hnone : lastWrite j (((chooseSplits env folds strat rs xtr.data).map
        (foldWrites env params xtr.data ytr)).flatten) = none := by
      apply lastWrite_eq_none
      intro q hq
      obtain ⟨l, hl, hql⟩ := List.mem_flatten.mp hq
      obtain ⟨sp, hsp, rfl⟩ := List.mem_map.mp hl
      obtain ⟨a, b⟩ := q
      intro e
      apply hnotin sp hsp
      have hql' : (a, b) ∈ sp.2.zip (foldPValid env params xtr.data ytr sp) := hql
      exact e ▸ (List.of_mem_zip hql').1
    rw [h1, getElem?_scatter j _ _ (by rw [List.length_replicate]; exact hj), hnone]
    show (List.replicate ytr.length (0 : ℚ))[j]? = some 0
    rw [List.getElem?_replicate, if_pos hj]

/-- C9 witness: on the concrete one-fold run the vector has length 2 and
the never-validated index holds 0. -/
theorem spec_C9_witness :
    (resW none spsW1).p_train.length = yW.length ∧
    ∀ j, j < yW.length →
      (∀ sp ∈ chooseSplits envW (.inr spsW1) none 1337 frameW.data, j ∉ sp.2) →
      (resW none spsW1).p_train[j]? = some 0 :=
  spec_C9_oof_shape envW () frameW yW none (.inr spsW1) none 1337 false
    (some ("final")) (resW none spsW1) rfl

/-- C4 counterexample: with named columns the claim fails — the training
set has 1 feature `a`, the supplied test set has 2 features `a`, `b`
(a differing feature count), checks are on, yet no `ShapeMismatch` is
raised: `x_test[columns]` first selects the training columns from the
test set (line 84), after which the shape assert at line 94 passes and
the call trains normally. -/
theorem spec_C4_counterexample :
    trainKfold envW () xtrC4n yW1 (some tC4n) (.inr [([0], [0])]) none 1337 false
        (some ("final")) ≠ .error TrainError.shapeMismatch ∧
    ncols tC4n.data ≠ ncols xtrC4n.data ∧
    (trainKfold envW () xtrC4n yW1 (some tC4n) (.inr [([0], [0])]) none 1337 false
        (some ("final"))).toOption.isSome = true := by
  refine ⟨?_, by decide, rfl⟩
  intro h
  rw [show trainKfold envW () xtrC4n yW1 (some tC4n) (.inr [([0], [0])]) none 1337
      false (some ("final")) = .ok (resC4n) from rfl] at h
  exact Except.noConfusion h

/-- C4 amended: when the training set has no feature names (so no column
coercion is possible) a supplied test set with a differing feature count
makes the call fail with `ShapeMismatch` (the assert at line 94) before
any fold is trained — uniformly in the backend; and when the caller opts
out of checks (`skip_checks=True`) the call never fails with
`ShapeMismatch`.  When the training columns are named, `x_test[columns]`
runs first (line 84) and can reduce a test set with a differing feature
count to the training columns, in which case the shape assert passes and
training proceeds — the counterexample above. -/
theorem spec_C4_shape_check (env : Env M P) (params : P) (xtr : Frame)
    (ytr : List ℚ) (t : Frame) (xte : Option Frame) (folds : Nat ⊕ List Split)
    (strat : Option (List ℚ)) (rs : Nat) (pim : Option String) :
    (xtr.cols = none → pim ∈ recognizedModes → ncols t.data ≠ ncols xtr.data →
      trainKfold env params xtr ytr (some t) folds strat rs false pim =
        .error TrainError.shapeMismatch) ∧
    trainKfold env params xtr ytr xte folds strat rs true pim ≠
      .error TrainError.shapeMismatch := by
  constructor
  · intro hnc hp hne
    have h2nd : (trainColumns xtr).2 = false := by
      simp [trainColumns, hnc]
    have hne' : ¬ (ncols xtr.data = ncols t.data) := fun e => hne e.symm
    have hprep : prepTest (trainColumns xtr).1 (trainColumns xtr).2 false
        (ncols xtr.data) (some t) = .error TrainError.shapeMismatch := by
      simp [prepTest, coerceTest, h2nd, hne']
    unfold trainKfold
    rw [if_pos hp, hprep]
  · intro h
    unfold trainKfold at h
    by_cases hp : pim ∈ recognizedModes
    · rw [if_pos hp] at h
      have hsk : prepTest (trainColumns xtr).1 (trainColumns xtr).2 true
          (ncols xtr.data) xte = .ok (xte.map Frame.data) := by
        cases xte with
        | none => rfl
        | some t' => simp [prepTest, coerceTest]
      rw [hsk] at h
      have h3 : (match runFolds env params xtr.data ytr (xte.map Frame.data)
          (trainColumns xtr).1 (initState ytr)
          (chooseSplits env folds strat rs xtr.data) with
        | Except.error e => Except.error e
        | Except.ok st =>
          if (chooseSplits env folds strat rs xtr.data).isEmpty = true then
            Except.error TrainError.nameError
          else Except.ok (finalize xte st)) =
          Except.error TrainError.shapeMismatch := h
      cases hrf : runFolds env params xtr.data ytr (xte.map Frame.data)
          (trainColumns xtr).1 (initState ytr)
          (chooseSplits env folds strat rs xtr.data) with
      | error e =>
        rw [hrf] at h3
        have h4 : (Except.error e : Except TrainError (TrainResult M)) =
            Except.error TrainError.shapeMismatch := h3
        have he : e = .badFeatureName :=
          runFolds_error_imp env params xtr.data ytr (xte.map Frame.data)
            (trainColumns xtr).1 _ _ hrf
        rw [he] at h4
        exact TrainError.noConfusion (Except.error.inj h4)
      | ok st =>
        rw [hrf] at h3
        have h4 : (if (chooseSplits env folds strat rs xtr.data).isEmpty = true then
            Except.error TrainError.nameError
          else Except.ok (finalize xte st)) =
            Except.error TrainError.shapeMismatch := h3
        by_cases hemp : (chooseSplits env folds strat rs xtr.data).isEmpty = true
        · rw [if_pos hemp] at h4
          exact TrainError.noConfusion (Except.error.inj h4)
        · rw [if_neg hemp] at h4
          exact Except.noConfusion h4
    · rw [if_neg hp] at h
      exact TrainError.noConfusion (Except.error.inj h)

/-- C4 witness: the amended behaviour on a concrete unnamed-columns run —
a (1,2) training matrix against a (1,1) test matrix trips the shape
assert with checks on, and nothing does with checks off. -/
theorem spec_C4_witness :
    trainKfold envW () xtrC4 yW1 (some tC4) (.inr [([0], [0])]) none 1337 false
        (some ("final")) = .error TrainError.shapeMismatch ∧
    trainKfold envW () xtrC4 yW1 (some tC4) (.inr [([0], [0])]) none 1337 true
        (some ("final")) ≠ .error TrainError.shapeMismatch :=
  ⟨(spec_C4_shape_check envW () xtrC4 yW1 tC4 (some tC4) (.inr [([0], [0])]) none
      1337 (some ("final"))).1 rfl (by decide) (by decide),
   (spec_C4_shape_check envW () xtrC4 yW1 tC4 (some tC4) (.inr [([0], [0])]) none
      1337 (some ("final"))).2⟩

/-- C5: when two folds' validation sets overlap on an index, the final
out-of-fold prediction there is the value written by the later of the
overlapping folds — each fold scatters `p_train[valid_kf] = p_valid`
(line 153) in fold order, so the last fold whose validation set holds
the index wins.  `spB` is that last fold: it appears after `spA`, both
contain `j`, and no later fold does. -/
theorem spec_C5_last_write_wins (env : Env M P) (params : P) (xtr : Frame)
    (ytr : List ℚ) (xte : Option Frame) (folds : Nat ⊕ List Split)
    (strat : Option (List ℚ)) (rs : Nat) (skip : Bool) (pim : Option String)
    (r : TrainResult M) (pre mid post : List Split) (spA spB : Split) (j : Nat)
    (h : trainKfold env params xtr ytr xte folds strat rs skip pim = .ok r)
    (hsp : chooseSplits env folds strat rs xtr.data =
      pre ++ spA :: (mid ++ spB :: post))
    (_hja : j ∈ spA.2) (hjb : j ∈ spB.2)
    (hpost : ∀ sp ∈ post, j ∉ sp.2)
    (hjN : j < ytr.length) :
    r.p_train[j]? = lastWrite j (foldWrites env params xtr.data ytr spB) ∧
    (lastWrite j (foldWrites env params xtr.data ytr spB)).isSome = true := by
  obtain ⟨_, _, _, dtest, _, hr⟩ := trainKfold_ok_elim env params h
  have h1 : r.p_train = scatter (List.replicate ytr.length 0)
      (((chooseSplits env folds strat rs xtr.data).map
        (foldWrites env params xtr.data ytr)).flatten) := by
    rw [hr]
    show ((chooseSplits env folds strat rs xtr.data).foldl
        (foldStep env params xtr.data ytr dtest (trainColumns xtr).1)
        (initState ytr)).p_train = _
    rw [foldl_pTrain]
    rfl
  have hlenB : spB.2.length ≤ (foldPValid env params xtr.data ytr spB).length := by
    simp [foldPValid, select]
  obtain ⟨v, hv⟩ := mem_zip_left hjb hlenB
  have hvW : (j, v) ∈ foldWrites env params xtr.data ytr spB := hv
  have hsome := lastWrite_isSome hvW
  refine ⟨?_, hsome⟩
  rw [h1, getElem?_scatter j _ _ (by rw [List.length_replicate]; exact hjN)]
  have hpostnone : lastWrite j
      ((post.map (foldWrites env params xtr.data ytr)).flatten) = none := by
    apply lastWrite_eq_none
    intro q hq
    obtain ⟨l, hl, hql⟩ := List.mem_flatten.mp hq
    obtain ⟨sp, hsp', rfl⟩ := List.mem_map.mp hl
    obtain ⟨a, b⟩ := q
    intro e
    apply hpost sp hsp'
    have hql' : (a, b) ∈ sp.2.zip (foldPValid env params xtr.data ytr sp) := hql
    exact e ▸ (List.of_mem_zip hql').1
  have hmain : lastWrite j (((pre ++ spA :: (mid ++ spB :: post)).map
      (foldWrites env params xtr.data ytr)).flatten) =
      lastWrite j (foldWrites env params xtr.data ytr spB) := by
    rw [List.map_append, List.flatten_append, lastWrite_append,
      List.map_cons, List.flatten_cons, lastWrite_append,
      List.map_append, List.flatten_append, lastWrite_append,
      List.map_cons, List.flatten_cons, lastWrite_append,
      hpostnone]
    cases hB : lastWrite j (foldWrites env params xtr.data ytr spB) with
    | some w => simp
    | none =>
      have hc : (Option.none : Option ℚ).isSome = true := hB ▸ hsome
      simp at hc
  rw [hsp, hmain]
  cases hB : lastWrite j (foldWrites env params xtr.data ytr spB) with
  | some w => simp
  | none =>
    have hc : (Option.none : Option ℚ).isSome = true := hB ▸ hsome
    simp at hc

/-- C5 witness: on the concrete run with two folds both validating on
index 0, the out-of-fold value at 0 is the later fold's write. -/
theorem spec_C5_witness :
    (resW none spsW5).p_train[0]? =
      lastWrite 0 (foldWrites envW () frameW.data yW (([0], [0]) : Split)) ∧
    (lastWrite 0 (foldWrites envW () frameW.data yW (([0], [0]) : Split))).isSome
      = true :=
  spec_C5_last_write_wins envW () frameW yW none (.inr spsW5) none 1337 false
    (some ("final")) (resW none spsW5) [] [] [] ([1], [0]) ([0], [0]) 0
    rfl rfl (by decide) (by decide) (by decide) (by decide)

/-- C1: without a test set the returned test prediction is `None`
(lines 169-170); with a test set it is a vector of one prediction per
test row equal to the elementwise arithmetic mean — sum divided by fold
count — of the per-fold test prediction vectors (line 162, the per-fold
vectors from line 151 on the prepared test matrix `dt`). -/
theorem spec_C1_test_mean (env : Env M P) (params : P) (xtr : Frame) (ytr : List ℚ)
    (xte : Option Frame) (folds : Nat ⊕ List Split) (strat : Option (List ℚ))
    (rs : Nat) (skip : Bool) (pim : Option String) (r : TrainResult M)
    (h : trainKfold env params xtr ytr xte folds strat rs skip pim = .ok r) :
    (xte = none → r.p_test = none) ∧
    (∀ t, xte = some t → ∃ dt,
      prepTest (trainColumns xtr).1 (trainColumns xtr).2 skip (ncols xtr.data)
        (some t) = .ok (some dt) ∧
      ∃ pv, r.p_test = some pv ∧ pv.length = t.data.length ∧
        ∀ i, i < pv.length → pv[i]? =
          some ((((chooseSplits env folds strat rs xtr.data).map
            (fun sp => (foldTestPred env params xtr.data ytr dt sp).getD i 0)).sum) /
            ((chooseSplits env folds strat rs xtr.data).length : ℚ))) := by
  obtain ⟨_, _, hne, dtest, hq, hr⟩ := trainKfold_ok_elim env params h
  constructor
  · intro hxe
    subst hxe
    subst hr
    rfl
  · intro t hxe
    subst hxe
    obtain ⟨dt, hdt, hdtlen⟩ := prepTest_ok_some hq
    subst hdt
    refine ⟨dt, hq, ?_⟩
    have hps : ((chooseSplits env folds strat rs xtr.data).foldl
        (foldStep env params xtr.data ytr (some dt) (trainColumns xtr).1)
        (initState ytr)).ps_test =
        (chooseSplits env folds strat rs xtr.data).map
          (foldTestPred env params xtr.data ytr dt) := by
      rw [foldl_psTest_some]
      rfl
    have hpt : r.p_test = some (meanAxis0
        ((chooseSplits env folds strat rs xtr.data).map
          (foldTestPred env params xtr.data ytr dt))) := by
      rw [hr]
      show some (meanAxis0 (((chooseSplits env folds strat rs xtr.data).foldl
        (foldStep env params xtr.data ytr (some dt) (trainColumns xtr).1)
        (initState ytr)).ps_test)) = _
      rw [hps]
    have hlen : ∀ u ∈ (chooseSplits env folds strat rs xtr.data).map
        (foldTestPred env params xtr.data ytr dt), u.length = dt.length := by
      intro u hu
      obtain ⟨sp, _, rfl⟩ := List.mem_map.mp hu
      simp [foldTestPred]
    have hneM : (chooseSplits env folds strat rs xtr.data).map
        (foldTestPred env params xtr.data ytr dt) ≠ [] := by
      intro e
      exact hne (List.map_eq_nil_iff.mp e)
    obtain ⟨hL, hG⟩ := meanAxis0_spec dt.length _ hneM hlen
    refine ⟨_, hpt, ?_, ?_⟩
    · rw [hL, hdtlen]
    · intro i hi
      rw [hL] at hi
      rw [hG i hi, List.map_map]
      have hcomp : ((fun (u : List ℚ) => u.getD i 0) ∘
          (foldTestPred env params xtr.data ytr dt)) =
          (fun sp => (foldTestPred env params xtr.data ytr dt sp).getD i 0) := rfl
      rw [hcomp, List.length_map]

/-- C1 witness: the concrete one-fold run with a two-row test set. -/
theorem spec_C1_witness :
    ((some testW : Option Frame) = none → (resW (some testW) spsW1).p_test = none) ∧
    (∀ t, (some testW : Option Frame) = some t → ∃ dt,
      prepTest (trainColumns frameW).1 (trainColumns frameW).2 false
        (ncols frameW.data) (some t) = .ok (some dt) ∧
      ∃ pv, (resW (some testW) spsW1).p_test = some pv ∧
        pv.length = t.data.length ∧
        ∀ i, i < pv.length → pv[i]? =
          some ((((chooseSplits envW (.inr spsW1) none 1337 frameW.data).map
            (fun sp => (foldTestPred envW () frameW.data yW dt sp).getD i 0)).sum) /
            ((chooseSplits envW (.inr spsW1) none 1337 frameW.data).length : ℚ))) :=
  spec_C1_test_mean envW () frameW yW (some testW) (.inr spsW1) none 1337 false
    (some ("final")) (resW (some testW) spsW1) rfl

end XgbKfold

